import Mathlib

set_option maxRecDepth 100000

/-!
Shallow embedding of the celestial-srv6 traffic-shaping core and proofs about
its specification.  The embedding covers the eBPF earliest-departure-time
scheduler (the final dual-stack revision of the tc program), the subnet
enumeration and address-conversion helpers of the ebpfem package, and the
SetBandwidth / SetLatency operations of the shaping engine.  Machine integers
are modelled as Nat, with an explicit wraparound modulo 2 to the 32 where the
source performs 32-bit arithmetic; the 64-bit nanosecond arithmetic of the
scheduler cannot overflow for representable packets and clocks and is modelled
directly on Nat.
-/

/-- TC action returned by the scheduler program: TC_ACT_OK or TC_ACT_SHOT. -/
inductive TcAct where
  | ok : TcAct
  | shot : TcAct
deriving DecidableEq

/-- Maximum tolerable scheduling delay in nanoseconds; packets beyond it are
dropped.  Source: TIME_HORIZON_NS, defined as 2000 * 1000 * 1000. -/
def TIME_HORIZON_NS : Nat := 2000 * 1000 * 1000

/-- Nanoseconds per second, as in the source. -/
def NS_PER_SEC : Nat := 1000000000

/-- Scheduling delay beyond which the congestion-experienced bit is set.
Source: ECN_HORIZON_NS, defined as 999999000000. -/
def ECN_HORIZON_NS : Nat := 999999000000

/-- Nanoseconds per microsecond, as in the source. -/
def NS_PER_US : Nat := 1000

/-- Transmission time of a packet: skb len times NS_PER_SEC divided by 1000 and
by the throttle rate in kbps.  The division by the rate is made explicit: the
result is none exactly when the divisor is zero. -/
def transmissionDelayNs (len rate : Nat) : Option Nat :=
  if rate = 0 then none else some (len * NS_PER_SEC / 1000 / rate)

/-- Mirrors struct handle_kbps_delay: a throttle rate in kbps and an extra
delay in microseconds. -/
structure HKD where
  throttleRateKbps : Nat
  delayUs : Nat
deriving DecidableEq

/-- Outcome of one run of the throttle function on a packet.  The flow-map
write is represented by the value stored for the looked-up key (none when no
write happens); map updates are modelled as succeeding, since the
update-failure path of the source depends on kernel memory pressure that has
no counterpart in the model.  The divByZero flag records whether the
zero-divisor branch of the transmission-time computation was taken. -/
structure ThrottleResult where
  act : TcAct
  write : Option Nat
  tstampOut : Nat
  ecn : Bool
  divByZero : Bool
deriving DecidableEq

/-- Embeds throttle_flow_ipv4 of the final revision of the tc program: drop on
zero rate, compute the transmission delay, take the later of the packet
timestamp and now, send immediately (recording that time) when the next
eligible departure is not later, drop past the time horizon, set the
congestion bit past the ECN horizon, otherwise stamp and record the next
eligible departure.  The caller passes the flow-map lookup result for the key
and applies the returned write. -/
def throttle_flow_ipv4 (len rate now skbTstamp : Nat) (lastT : Option Nat) : ThrottleResult :=
  if rate = 0 then
    { act := .shot, write := none, tstampOut := skbTstamp, ecn := false, divByZero := false }
  else
    match transmissionDelayNs len rate with
    | none =>
      { act := .shot, write := none, tstampOut := skbTstamp, ecn := false, divByZero := true }
    | some delay_ns =>
      let next_tstamp := match lastT with
        | some last => last + delay_ns
        | none => 0
      let tstamp := if skbTstamp < now then now else skbTstamp
      if next_tstamp ≤ tstamp then
        { act := .ok, write := some tstamp, tstampOut := skbTstamp, ecn := false,
          divByZero := false }
      else if TIME_HORIZON_NS ≤ next_tstamp - now then
        { act := .shot, write := none, tstampOut := skbTstamp, ecn := false, divByZero := false }
      else
        { act := .ok, write := some next_tstamp, tstampOut := next_tstamp,
          ecn := decide (ECN_HORIZON_NS ≤ next_tstamp - now), divByZero := false }

/-- Embeds throttle_flow_ipv6, whose body performs the same steps as
throttle_flow_ipv4 on the IPv6 flow map; the map interaction is factored out
identically, so the per-packet arithmetic coincides. -/
def throttle_flow_ipv6 (len rate now skbTstamp : Nat) (lastT : Option Nat) : ThrottleResult :=
  if rate = 0 then
    { act := .shot, write := none, tstampOut := skbTstamp, ecn := false, divByZero := false }
  else
    match transmissionDelayNs len rate with
    | none =>
      { act := .shot, write := none, tstampOut := skbTstamp, ecn := false, divByZero := true }
    | some delay_ns =>
      let next_tstamp := match lastT with
        | some last => last + delay_ns
        | none => 0
      let tstamp := if skbTstamp < now then now else skbTstamp
      if next_tstamp ≤ tstamp then
        { act := .ok, write := some tstamp, tstampOut := skbTstamp, ecn := false,
          divByZero := false }
      else if TIME_HORIZON_NS ≤ next_tstamp - now then
        { act := .shot, write := none, tstampOut := skbTstamp, ecn := false, divByZero := false }
      else
        { act := .ok, write := some next_tstamp, tstampOut := next_tstamp,
          ecn := decide (ECN_HORIZON_NS ≤ next_tstamp - now), divByZero := false }

/-- Embeds inject_delay: add the configured extra delay to the packet
timestamp, or start from now when the timestamp is unset.  The product
delay_us times NS_PER_US is 32-bit C arithmetic in the source, hence the
explicit wraparound. -/
def inject_delay (now skbTstamp delay_us : Nat) : Nat :=
  let delay_ns := delay_us * NS_PER_US % 2 ^ 32
  if skbTstamp = 0 then now + delay_ns
  else skbTstamp + delay_ns

/-- Protocol number of ICMP. -/
def IPPROTO_ICMP : Nat := 1

/-- Protocol number of TCP. -/
def IPPROTO_TCP : Nat := 6

/-- Protocol number of UDP. -/
def IPPROTO_UDP : Nat := 17

/-- Protocol number of ICMPv6. -/
def IPPROTO_ICMPV6 : Nat := 58

/-- Pointwise-updated lookup table, standing in for one kernel hash map. -/
def mapUpdate {α β : Type} [DecidableEq α] (m : α → Option β) (k : α) (v : β) :
    α → Option β :=
  fun x => if x = k then some v else m x

/-- Fields of an outbound IPv4 packet that the tc program reads: the transport
protocol, the source and destination addresses as the 32-bit key values loaded
from the header, the length, and the current departure timestamp. -/
structure Packet4 where
  proto : Nat
  saddr : Nat
  daddr : Nat
  len : Nat
  tstamp : Nat

/-- IPv4-side kernel state visible to the program: the IP_HANDLE_KBPS_DELAY
configuration map written by the engine and the ipv4 flow map owned by the
program. -/
structure TcState4 where
  cfg : Nat → Option HKD
  flow : Nat → Option Nat

/-- Result of one run of the program on an IPv4 packet, with the updated flow
map and final timestamp.  The latencyApplied flag records whether control
reached the inject_delay latency stage. -/
structure TcOut4 where
  act : TcAct
  flow : Nat → Option Nat
  tstamp : Nat
  ecn : Bool
  latencyApplied : Bool

/-- Embeds the ETH_P_IP arm of tc_main (final dual-stack revision): filter the
transport protocol, look up IP_HANDLE_KBPS_DELAY keyed by the saddr field of
the IP header, run the bandwidth stage, then the latency stage. -/
def tcMain4 (st : TcState4) (p : Packet4) (now : Nat) : TcOut4 :=
  if p.proto = IPPROTO_ICMP ∨ p.proto = IPPROTO_TCP ∨ p.proto = IPPROTO_UDP then
    match st.cfg p.saddr with
    | none =>
      { act := .ok, flow := st.flow, tstamp := p.tstamp, ecn := false, latencyApplied := false }
    | some val =>
      let r := throttle_flow_ipv4 p.len val.throttleRateKbps now p.tstamp (st.flow p.saddr)
      let flow' := match r.write with
        | some v => mapUpdate st.flow p.saddr v
        | none => st.flow
      match r.act with
      | .shot =>
        { act := .shot, flow := flow', tstamp := r.tstampOut, ecn := r.ecn,
          latencyApplied := false }
      | .ok =>
        { act := .ok, flow := flow', tstamp := inject_delay now r.tstampOut val.delayUs,
          ecn := r.ecn, latencyApplied := true }
  else
    { act := .ok, flow := st.flow, tstamp := p.tstamp, ecn := false, latencyApplied := false }

/-- Fields of an outbound IPv6 packet that the tc program reads; addresses are
sixteen-byte lists. -/
structure Packet6 where
  proto : Nat
  saddr : List Nat
  daddr : List Nat
  len : Nat
  tstamp : Nat

/-- IPv6-side kernel state: IPV6_HANDLE_KBPS_DELAY and the ipv6 flow map. -/
structure TcState6 where
  cfg : List Nat → Option HKD
  flow : List Nat → Option Nat

/-- Result of one run of the program on an IPv6 packet. -/
structure TcOut6 where
  act : TcAct
  flow : List Nat → Option Nat
  tstamp : Nat
  ecn : Bool
  latencyApplied : Bool

/-- Embeds the ETH_P_IPV6 arm of tc_main (final dual-stack revision): filter
the transport protocol, look up IPV6_HANDLE_KBPS_DELAY keyed by the saddr
field of the IPv6 header, run the bandwidth stage, then the latency stage. -/
def tcMain6 (st : TcState6) (p : Packet6) (now : Nat) : TcOut6 :=
  if p.proto = IPPROTO_ICMPV6 ∨ p.proto = IPPROTO_TCP ∨ p.proto = IPPROTO_UDP then
    match st.cfg p.saddr with
    | none =>
      { act := .ok, flow := st.flow, tstamp := p.tstamp, ecn := false, latencyApplied := false }
    | some val =>
      let r := throttle_flow_ipv6 p.len val.throttleRateKbps now p.tstamp (st.flow p.saddr)
      let flow' := match r.write with
        | some v => mapUpdate st.flow p.saddr v
        | none => st.flow
      match r.act with
      | .shot =>
        { act := .shot, flow := flow', tstamp := r.tstampOut, ecn := r.ecn,
          latencyApplied := false }
      | .ok =>
        { act := .ok, flow := flow', tstamp := inject_delay now r.tstampOut val.delayUs,
          ecn := r.ecn, latencyApplied := true }
  else
    { act := .ok, flow := st.flow, tstamp := p.tstamp, ecn := false, latencyApplied := false }

/-- Embeds the body of incrementIP on the reversed byte list: the index loop of
the source walks from the last byte toward the first, incrementing (bytes wrap
at 256) and stopping as soon as an increment does not wrap to zero. -/
def incRev : List Nat → List Nat
  | [] => []
  | b :: rest =>
    let b' := (b + 1) % 256
    if b' > 0 then b' :: rest else b' :: incRev rest

/-- Embeds incrementIP: increment the lowest-order byte, letting the carry walk
through all bytes. -/
def incrementIP (ip : List Nat) : List Nat := (incRev ip.reverse).reverse

/-- Byte i of net.CIDRMask for a given mask length: the high-order bits that
fall in this byte are set. -/
def cidrMaskByte (maskBits i : Nat) : Nat := 256 - 2 ^ (8 - min 8 (maskBits - 8 * i))

/-- net.CIDRMask with the given mask length over the given number of bytes. -/
def cidrMask (maskBits totalBytes : Nat) : List Nat :=
  (List.range totalBytes).map (cidrMaskByte maskBits)

/-- Byte-wise AND of an address with a mask, as ip.Mask performs. -/
def maskIP (ip mask : List Nat) : List Nat := List.zipWith (fun b m => b &&& m) ip mask

/-- Last address of the network: every byte of the network address ORed with
the complement of the mask byte, as the endIP loop of parseNetToLongs does. -/
def endOfNet (start mask : List Nat) : List Nat :=
  List.zipWith (fun b m => b ||| (m ^^^ 255)) start mask

/-- A four-octet net.IPNet: the unmasked address bytes and the mask length. -/
structure IPNet4 where
  addr : List Nat
  maskBits : Nat
deriving DecidableEq

/-- A sixteen-octet net.IPNet: the unmasked address bytes and the mask length. -/
structure IPNet6 where
  addr : List Nat
  maskBits : Nat
deriving DecidableEq

/-- The enumeration loop of parseNetToLongs, which runs until the walking
address equals the last address; the fuel argument bounds the iteration count
of this while-style loop and is chosen larger than any possible distance. -/
def enumIPs : Nat → List Nat → List Nat → List (List Nat)
  | 0, _, _ => []
  | fuel + 1, ip, endIP =>
    if ip = endIP then [] else ip :: enumIPs fuel (incrementIP ip) endIP

/-- Embeds the IPv4 branch of parseNetToLongs up to the per-address parse: the
enumerated addresses from the network address to the last address inclusive. -/
def enumNet4 (t : IPNet4) : List (List Nat) :=
  let start := maskIP t.addr (cidrMask t.maskBits 4)
  let endIP := endOfNet start (cidrMask t.maskBits 4)
  enumIPs (2 ^ 32) start endIP ++ [endIP]

/-- Embeds the IPv6 branch of parseNetToLongs: the enumerated sixteen-byte
addresses from the network address to the last address inclusive (parseIPToLong
returns the raw bytes for IPv6, so no further conversion applies). -/
def enumNet6 (t : IPNet6) : List (List Nat) :=
  let start := maskIP t.addr (cidrMask t.maskBits 16)
  let endIP := endOfNet start (cidrMask t.maskBits 16)
  enumIPs (2 ^ 128) start endIP ++ [endIP]

/-- Embeds parseIPToLong on a four-octet address: the little-endian uint32 that
binary.Read with binary.LittleEndian produces from the four bytes. -/
def leU32 : List Nat → Nat
  | [a, b, c, d] => a + 256 * b + 65536 * c + 16777216 * d
  | _ => 0

/-- parseNetToLongs for a four-octet subnet: every enumerated address converted
to its little-endian uint32 key. -/
def parseNetToLongs4 (t : IPNet4) : List Nat := (enumNet4 t).map leU32

/-- Embeds generateIPv6: the string fd00 colon-colon followed by the four
octets each rendered with the percent-x verb is parsed back by net.ParseIP,
which yields exactly the sixteen bytes below, because a hex-rendered octet
parses to the same value inside its own 16-bit group; the mask is always
CIDRMask(126, 128). -/
def generateIPv6 (a b c d : Nat) : IPNet6 :=
  { addr := [0xfd, 0x00, 0, 0, 0, 0, 0, 0, 0, a, 0, b, 0, c, 0, d], maskBits := 126 }

/-- generateIPv6 applied to a four-octet address given as its byte list. -/
def generateIPv6ofIP (ip : List Nat) : IPNet6 :=
  match ip with
  | [a, b, c, d] => generateIPv6 a b c d
  | _ => generateIPv6 0 0 0 0

/-- The 16-bit group i of a sixteen-byte address: two consecutive bytes, the
earlier one high. -/
def v6group (addr : List Nat) (i : Nat) : Nat :=
  256 * addr.getD (2 * i) 0 + addr.getD (2 * i + 1) 0

/-- The IPv6 map key that SetBandwidth and SetLatency derive for an enumerated
IPv4 key: the source unpacks the uint32 with big-endian shifts (byte(ip
shifted right by 24) first), rebuilds a dotted-quad string from those bytes
and passes it to generateIPv6, using only the address of the resulting net. -/
def mirrorKeyV6 (l : Nat) : List Nat :=
  (generateIPv6 ((l >>> 24) % 256) ((l >>> 16) % 256) ((l >>> 8) % 256) (l % 256)).addr

/-- Default bandwidth used by getHBD for a fresh entry.  Modelled from the
spec: the constant DEFAULT_BANDWIDTH_KBPS is declared in an ebpfem types file
that is not among the provided sources, only its use site is; it is modelled
as a fixed placeholder value and no theorem below depends on the number. -/
def DEFAULT_BANDWIDTH_KBPS : Nat := 1000000

/-- Default latency used by getHBD for a fresh entry.  Modelled from the spec:
the constant DEFAULT_LATENCY_US is declared in an ebpfem types file that is
not among the provided sources, only its use site is; it is modelled as a
fixed placeholder value and no theorem below depends on the number. -/
def DEFAULT_LATENCY_US : Nat := 0

/-- Per-machine engine state: the handle-kbps-delay table keyed by the target
subnet (the Go code keys it by the String form of the target, which is
injective in the address-and-mask pair used here) and the two kernel
configuration maps. -/
structure EngineVM where
  hbd : IPNet4 → Option HKD
  v4map : Nat → Option HKD
  v6map : List Nat → Option HKD

/-- Embeds getHBD: the stored entry for the target, or a fresh entry carrying
the default bandwidth and latency.  The source stores the fresh entry back
into the table and returns a pointer; the callers below model the subsequent
field mutation and store as a functional update with this entry as base. -/
def getHBDentry (v : EngineVM) (t : IPNet4) : HKD :=
  match v.hbd t with
  | some e => e
  | none => { throttleRateKbps := DEFAULT_BANDWIDTH_KBPS, delayUs := DEFAULT_LATENCY_US }

/-- The per-address map writes shared by SetBandwidth and SetLatency: every
enumerated IPv4 key receives the whole entry, and so does the IPv6 key derived
from it. -/
def putAll (v4 : Nat → Option HKD) (v6 : List Nat → Option HKD) (keys : List Nat) (e : HKD) :
    (Nat → Option HKD) × (List Nat → Option HKD) :=
  match keys with
  | [] => (v4, v6)
  | k :: rest => putAll (mapUpdate v4 k e) (mapUpdate v6 (mirrorKeyV6 k) e) rest e

/-- Embeds SetBandwidth for a four-octet target subnet on one machine: look up
or create the entry, overwrite its rate field with the uint32 truncation of
the uint64 argument, then write the whole entry into both kernel maps for
every enumerated address of the subnet. -/
def SetBandwidthVM (v : EngineVM) (t : IPNet4) (bandwidthKbits : Nat) : EngineVM :=
  let e := getHBDentry v t
  let e' := { e with throttleRateKbps := bandwidthKbits % 2 ^ 32 }
  let maps := putAll v.v4map v.v6map (parseNetToLongs4 t) e'
  { hbd := mapUpdate v.hbd t e', v4map := maps.1, v6map := maps.2 }

/-- Embeds SetLatency for a four-octet target subnet on one machine: look up or
create the entry, overwrite its delay field with the uint32 argument, then
write the whole entry into both kernel maps for every enumerated address of
the subnet. -/
def SetLatencyVM (v : EngineVM) (t : IPNet4) (latency : Nat) : EngineVM :=
  let e := getHBDentry v t
  let e' := { e with delayUs := latency % 2 ^ 32 }
  let maps := putAll v.v4map v.v6map (parseNetToLongs4 t) e'
  { hbd := mapUpdate v.hbd t e', v4map := maps.1, v6map := maps.2 }

/-- Engine state over registered machines, as the vms table of the EBPFem
struct. -/
def EBPFemState : Type := Nat → Option EngineVM

/-- Embeds the machine lookup of SetBandwidth: the call fails (none) when the
machine was never registered, otherwise the machine state is replaced. -/
def SetBandwidthE (st : EBPFemState) (m : Nat) (t : IPNet4) (bw : Nat) : Option EBPFemState :=
  match st m with
  | none => none
  | some v => some (fun k => if k = m then some (SetBandwidthVM v t bw) else st k)

/-- A machine state with empty shaping table and empty kernel maps, as after
Register. -/
def emptyVM : EngineVM :=
  { hbd := fun _ => none, v4map := fun _ => none, v6map := fun _ => none }

/-- Flow-map contents at one destination key under a burst with no prior
history: packets of equal length to one destination at a fixed rate, all
carrying a zero skb timestamp and observing the same clock value; the entry
starts absent and each packet applies the write of the throttle function. -/
def burstLast (len rate now : Nat) : Nat → Option Nat
  | 0 => none
  | k + 1 =>
    let r := throttle_flow_ipv4 len rate now 0 (burstLast len rate now k)
    match r.write with
    | some v => some v
    | none => burstLast len rate now k

theorem putAll_v4_not_mem (v4 : Nat → Option HKD) (v6 : List Nat → Option HKD)
    (keys : List Nat) (e : HKD) (k : Nat) (hk : k ∉ keys) :
    (putAll v4 v6 keys e).1 k = v4 k := by
  induction keys generalizing v4 v6 with
  | nil => rfl
  | cons a rest ih =>
    simp only [List.mem_cons, not_or] at hk
    rw [putAll, ih _ _ hk.2]
    simp [mapUpdate, hk.1]

theorem putAll_v4_mem (v4 : Nat → Option HKD) (v6 : List Nat → Option HKD)
    (keys : List Nat) (e : HKD) (k : Nat) (hk : k ∈ keys) :
    (putAll v4 v6 keys e).1 k = some e := by
  induction keys generalizing v4 v6 with
  | nil => cases hk
  | cons a rest ih =>
    by_cases h : k ∈ rest
    · rw [putAll]; exact ih _ _ h
    · have hka : k = a := by
        rcases List.mem_cons.mp hk with h1 | h2
        · exact h1
        · exact absurd h2 h
      rw [putAll, putAll_v4_not_mem _ _ _ _ _ h]
      simp [mapUpdate, hka]

theorem putAll_v6_not_mem (v4 : Nat → Option HKD) (v6 : List Nat → Option HKD)
    (keys : List Nat) (e : HKD) (w : List Nat) (hw : w ∉ keys.map mirrorKeyV6) :
    (putAll v4 v6 keys e).2 w = v6 w := by
  induction keys generalizing v4 v6 with
  | nil => rfl
  | cons a rest ih =>
    simp only [List.map_cons, List.mem_cons, not_or] at hw
    rw [putAll, ih _ _ hw.2]
    simp [mapUpdate, hw.1]

theorem putAll_v6_mem (v4 : Nat → Option HKD) (v6 : List Nat → Option HKD)
    (keys : List Nat) (e : HKD) (w : List Nat) (hw : w ∈ keys.map mirrorKeyV6) :
    (putAll v4 v6 keys e).2 w = some e := by
  induction keys generalizing v4 v6 with
  | nil => cases hw
  | cons a rest ih =>
    simp only [List.map_cons] at hw
    by_cases h : w ∈ rest.map mirrorKeyV6
    · rw [putAll]; exact ih _ _ h
    · have hwa : w = mirrorKeyV6 a := by
        rcases List.mem_cons.mp hw with h1 | h2
        · exact h1
        · exact absurd h2 h
      rw [putAll, putAll_v6_not_mem _ _ _ _ _ h]
      simp [mapUpdate, hwa]

theorem byte_and_255 : ∀ a < 256, a &&& 255 = a := by decide

theorem byte_and_252 : ∀ d < 256, d &&& 252 = 4 * (d / 4) := by decide

theorem byte_or_0 : ∀ a < 256, a ||| 0 = a := by decide

theorem byte_or_3 : ∀ d < 256, 4 * (d / 4) ||| 3 = 4 * (d / 4) + 3 := by decide

theorem incRev_cons_lt (x : Nat) (l : List Nat) (h : x + 1 < 256) :
    incRev (x :: l) = (x + 1) :: l := by
  simp [incRev, Nat.mod_eq_of_lt h]

theorem incrementIP_last (l : List Nat) (x : Nat) (h : x + 1 < 256) :
    incrementIP (l ++ [x]) = l ++ [x + 1] := by
  have hrev : (l ++ [x]).reverse = x :: l.reverse := by simp
  rw [incrementIP, hrev, incRev_cons_lt _ _ h]
  simp

theorem enumIPs_step (fuel : Nat) (ip endIP : List Nat) (h : ip ≠ endIP) :
    enumIPs (fuel + 1) ip endIP = ip :: enumIPs fuel (incrementIP ip) endIP := by
  simp [enumIPs, h]

theorem enumIPs_self (fuel : Nat) (ip : List Nat) : enumIPs fuel ip ip = [] := by
  cases fuel <;> simp [enumIPs]

theorem enumIPs_aligned (f : Nat) (l : List Nat) (x : Nat) (hx : x + 3 < 256) :
    enumIPs (f + 3) (l ++ [x]) (l ++ [x + 3]) =
      [l ++ [x], l ++ [x + 1], l ++ [x + 2]] := by
  have ne1 : l ++ [x] ≠ l ++ [x + 3] := by simp
  have ne2 : l ++ [x + 1] ≠ l ++ [x + 3] := by simp
  have ne3 : l ++ [x + 2] ≠ l ++ [x + 3] := by simp
  rw [show f + 3 = f + 2 + 1 from rfl, enumIPs_step _ _ _ ne1,
    incrementIP_last l x (by omega),
    show f + 2 = f + 1 + 1 from rfl, enumIPs_step _ _ _ ne2,
    incrementIP_last l (x + 1) (by omega),
    show x + 1 + 1 = x + 2 from rfl,
    show f + 1 = f + 0 + 1 from rfl, enumIPs_step _ _ _ ne3,
    incrementIP_last l (x + 2) (by omega),
    show x + 2 + 1 = x + 3 from rfl, enumIPs_self]

theorem cidrMask_30 : cidrMask 30 4 = [255, 255, 255, 252] := by decide

theorem cidrMask_126 : cidrMask 126 16 =
    [255, 255, 255, 255, 255, 255, 255, 255, 255, 255, 255, 255, 255, 255, 255, 252] := by
  decide

theorem enumNet4_slash30 (a b c d : Nat) (ha : a < 256) (hb : b < 256) (hc : c < 256)
    (hd : d < 256) :
    enumNet4 { addr := [a, b, c, d], maskBits := 30 } =
      [[a, b, c, 4 * (d / 4)], [a, b, c, 4 * (d / 4) + 1],
        [a, b, c, 4 * (d / 4) + 2], [a, b, c, 4 * (d / 4) + 3]] := by
  have hx3 : 4 * (d / 4) + 3 < 256 := by omega
  have hmask : maskIP [a, b, c, d] (cidrMask 30 4) = [a, b, c, 4 * (d / 4)] := by
    rw [cidrMask_30]
    simp [maskIP, byte_and_255 a ha, byte_and_255 b hb, byte_and_255 c hc, byte_and_252 d hd]
  have hend : endOfNet [a, b, c, 4 * (d / 4)] (cidrMask 30 4) = [a, b, c, 4 * (d / 4) + 3] := by
    rw [cidrMask_30]
    simp [endOfNet, show (255 : Nat) ^^^ 255 = 0 from by decide,
      show (252 : Nat) ^^^ 255 = 3 from by decide,
      byte_or_0 a ha, byte_or_0 b hb, byte_or_0 c hc, byte_or_3 d hd]
  have hrun := enumIPs_aligned (2 ^ 32 - 3) [a, b, c] (4 * (d / 4)) hx3
  have hf : (2 : Nat) ^ 32 - 3 + 3 = 2 ^ 32 := by norm_num
  rw [hf] at hrun
  simp only [List.cons_append, List.nil_append] at hrun
  unfold enumNet4
  simp only [hmask, hend, hrun]
  simp

theorem enumNet6_gen (a b c d : Nat) (ha : a < 256) (hb : b < 256) (hc : c < 256)
    (hd : d < 256) :
    enumNet6 (generateIPv6 a b c d) =
      [[0xfd, 0, 0, 0, 0, 0, 0, 0, 0, a, 0, b, 0, c, 0, 4 * (d / 4)],
        [0xfd, 0, 0, 0, 0, 0, 0, 0, 0, a, 0, b, 0, c, 0, 4 * (d / 4) + 1],
        [0xfd, 0, 0, 0, 0, 0, 0, 0, 0, a, 0, b, 0, c, 0, 4 * (d / 4) + 2],
        [0xfd, 0, 0, 0, 0, 0, 0, 0, 0, a, 0, b, 0, c, 0, 4 * (d / 4) + 3]] := by
  have hx3 : 4 * (d / 4) + 3 < 256 := by omega
  have hmask : maskIP (generateIPv6 a b c d).addr (cidrMask 126 16) =
      [0xfd, 0, 0, 0, 0, 0, 0, 0, 0, a, 0, b, 0, c, 0, 4 * (d / 4)] := by
    rw [cidrMask_126]
    simp [maskIP, generateIPv6, byte_and_255 a ha, byte_and_255 b hb, byte_and_255 c hc,
      byte_and_252 d hd, show (0xfd : Nat) &&& 255 = 0xfd from by decide,
      show (0 : Nat) &&& 255 = 0 from by decide]
  have hend : endOfNet [0xfd, 0, 0, 0, 0, 0, 0, 0, 0, a, 0, b, 0, c, 0, 4 * (d / 4)]
      (cidrMask 126 16) =
      [0xfd, 0, 0, 0, 0, 0, 0, 0, 0, a, 0, b, 0, c, 0, 4 * (d / 4) + 3] := by
    rw [cidrMask_126]
    simp [endOfNet, show (255 : Nat) ^^^ 255 = 0 from by decide,
      show (252 : Nat) ^^^ 255 = 3 from by decide,
      byte_or_0 a ha, byte_or_0 b hb, byte_or_0 c hc, byte_or_3 d hd,
      show (0xfd : Nat) ||| 0 = 0xfd from by decide, show (0 : Nat) ||| 0 = 0 from by decide]
  have hrun := enumIPs_aligned (2 ^ 128 - 3) [0xfd, 0, 0, 0, 0, 0, 0, 0, 0, a, 0, b, 0, c, 0]
    (4 * (d / 4)) hx3
  have hf : (2 : Nat) ^ 128 - 3 + 3 = 2 ^ 128 := by norm_num
  rw [hf] at hrun
  simp only [List.cons_append, List.nil_append] at hrun
  have hmb : (generateIPv6 a b c d).maskBits = 126 := rfl
  norm_num at hrun
  simp only [enumNet6, hmb, hmask, hend]
  norm_num [hrun]

theorem throttle_write_mono (len rate now skbT l v : Nat)
    (hw : (throttle_flow_ipv4 len rate now skbT (some l)).write = some v) : l ≤ v := by
  by_cases hr : rate = 0
  · simp [throttle_flow_ipv4, hr] at hw
  · simp only [throttle_flow_ipv4, transmissionDelayNs, if_neg hr] at hw
    generalize hD : len * NS_PER_SEC / 1000 / rate = D at hw
    split_ifs at hw <;> simp at hw <;> omega

theorem throttle_ecn_false (len rate now skbT : Nat) (lastT : Option Nat) :
    (throttle_flow_ipv4 len rate now skbT lastT).ecn = false := by
  by_cases hr : rate = 0
  · simp [throttle_flow_ipv4, hr]
  · simp only [throttle_flow_ipv4, transmissionDelayNs, if_neg hr]
    split_ifs <;>
      first
      | rfl
      | (simp only [decide_eq_false_iff_not, ECN_HORIZON_NS, TIME_HORIZON_NS] at *
         omega)

theorem throttle_ecn_false6 (len rate now skbT : Nat) (lastT : Option Nat) :
    (throttle_flow_ipv6 len rate now skbT lastT).ecn = false := by
  by_cases hr : rate = 0
  · simp [throttle_flow_ipv6, hr]
  · simp only [throttle_flow_ipv6, transmissionDelayNs, if_neg hr]
    split_ifs <;>
      first
      | rfl
      | (simp only [decide_eq_false_iff_not, ECN_HORIZON_NS, TIME_HORIZON_NS] at *
         omega)

theorem throttle_rate0 (len now skbT : Nat) (lastT : Option Nat) :
    throttle_flow_ipv4 len 0 now skbT lastT =
      { act := .shot, write := none, tstampOut := skbT, ecn := false, divByZero := false } := by
  simp [throttle_flow_ipv4]

theorem throttle_first_write (len rate now D : Nat)
    (hD : transmissionDelayNs len rate = some D) :
    (throttle_flow_ipv4 len rate now 0 none).write = some now := by
  have hr : rate ≠ 0 := by
    intro h
    simp [transmissionDelayNs, h] at hD
  simp only [throttle_flow_ipv4, if_neg hr, hD]
  split_ifs <;> first | omega | (simp <;> omega)

theorem throttle_next_write (len rate now l D : Nat)
    (hD : transmissionDelayNs len rate = some D)
    (h1 : now < l + D) (h2 : l + D - now < TIME_HORIZON_NS) :
    (throttle_flow_ipv4 len rate now 0 (some l)).write = some (l + D) := by
  have hr : rate ≠ 0 := by
    intro h
    simp [transmissionDelayNs, h] at hD
  simp only [throttle_flow_ipv4, if_neg hr, hD]
  split_ifs <;> first | omega | (simp <;> omega)

theorem burstLast_formula (len rate now D : Nat)
    (hD : transmissionDelayNs len rate = some D) (hdelay : 0 < D) :
    ∀ k : Nat, k * D < TIME_HORIZON_NS →
      burstLast len rate now (k + 1) = some (now + k * D) := by
  intro k
  induction k with
  | zero =>
    intro _
    have h0 : burstLast len rate now 1 =
        match (throttle_flow_ipv4 len rate now 0 none).write with
        | some v => some v
        | none => none := rfl
    rw [h0, throttle_first_write len rate now D hD]
    simp
  | succ n ih =>
    intro hk
    have hmul : n * D ≤ (n + 1) * D := Nat.mul_le_mul_right D (Nat.le_succ n)
    have hn : n * D < TIME_HORIZON_NS := lt_of_le_of_lt hmul hk
    have hsm : (n + 1) * D = n * D + D := by ring
    have hstep : burstLast len rate now (n + 1 + 1) =
        match (throttle_flow_ipv4 len rate now 0 (burstLast len rate now (n + 1))).write with
        | some v => some v
        | none => burstLast len rate now (n + 1) := rfl
    rw [hstep, ih hn, throttle_next_write len rate now (now + n * D) D hD (by omega)
      (by rw [hsm] at hk; omega)]
    show some (now + n * D + D) = some (now + (n + 1) * D)
    rw [hsm]
    simp only [Option.some.injEq]
    omega

/-- C1 counterexample: the kernel program does not key its lookup by the
destination address.  With a configuration map holding an entry (rate zero)
only for address 1, a TCP packet with source 1 and destination 2 misses a
destination-keyed lookup, so the claim predicts an unshaped pass (OK); the
program instead acts on the source-keyed entry and drops the packet. -/
theorem C1_counterexample :
    (fun k => if k = 1 then some { throttleRateKbps := 0, delayUs := 0 } else none :
      Nat → Option HKD) 2 = none ∧
    (tcMain4
        { cfg := fun k => if k = 1 then some { throttleRateKbps := 0, delayUs := 0 } else none,
          flow := fun _ => none }
        { proto := 6, saddr := 1, daddr := 2, len := 100, tstamp := 0 } 0).act = TcAct.shot ∧
    TcAct.shot ≠ TcAct.ok := by
  refine ⟨rfl, ?_, by decide⟩
  decide

/-- C1 (amended): for every outbound packet of a recognized address family and
shaped transport protocol, the kernel scheduler looks up the shaping entry
using the packet SOURCE address as the key in the family-appropriate map, and
when that lookup misses the packet is passed through unshaped: action OK with
flow state, timestamp and marking untouched and the latency stage not
reached. -/
theorem C1_amended :
    (∀ (st : TcState4) (p : Packet4) (now : Nat),
      p.proto = IPPROTO_ICMP ∨ p.proto = IPPROTO_TCP ∨ p.proto = IPPROTO_UDP →
      st.cfg p.saddr = none →
      tcMain4 st p now =
        { act := .ok, flow := st.flow, tstamp := p.tstamp, ecn := false,
          latencyApplied := false }) ∧
    (∀ (st : TcState6) (p : Packet6) (now : Nat),
      p.proto = IPPROTO_ICMPV6 ∨ p.proto = IPPROTO_TCP ∨ p.proto = IPPROTO_UDP →
      st.cfg p.saddr = none →
      tcMain6 st p now =
        { act := .ok, flow := st.flow, tstamp := p.tstamp, ecn := false,
          latencyApplied := false }) := by
  constructor
  · intro st p now hp hmiss
    unfold tcMain4
    rw [if_pos hp, hmiss]
  · intro st p now hp hmiss
    unfold tcMain6
    rw [if_pos hp, hmiss]

/-- C1 witness: the amended theorem applied to a concrete UDP packet (source
9, destination 9) against an empty configuration map, in both families. -/
theorem C1_witness :
    tcMain4 { cfg := fun _ => none, flow := fun _ => none }
        { proto := 17, saddr := 9, daddr := 9, len := 64, tstamp := 0 } 5 =
      { act := .ok, flow := fun _ => none, tstamp := 0, ecn := false,
        latencyApplied := false } ∧
    tcMain6 { cfg := fun _ => none, flow := fun _ => none }
        { proto := 58, saddr := [1], daddr := [1], len := 64, tstamp := 0 } 5 =
      { act := .ok, flow := fun _ => none, tstamp := 0, ecn := false,
        latencyApplied := false } :=
  ⟨C1_amended.1 { cfg := fun _ => none, flow := fun _ => none }
      { proto := 17, saddr := 9, daddr := 9, len := 64, tstamp := 0 } 5
      (Or.inr (Or.inr rfl)) rfl,
    C1_amended.2 { cfg := fun _ => none, flow := fun _ => none }
      { proto := 58, saddr := [1], daddr := [1], len := 64, tstamp := 0 } 5
      (Or.inl rfl) rfl⟩

/-- C2 counterexample: the congestion threshold is not smaller than the drop
horizon: ECN_HORIZON_NS (999999000000) is not below TIME_HORIZON_NS
(2000000000), so the claimed ordering of the two constants is false. -/
theorem C2_counterexample : ¬ ECN_HORIZON_NS < TIME_HORIZON_NS := by decide

/-- C2 (amended): in the bandwidth stage with a non-zero rate, when the gap
between the computed next eligible departure time and now reaches the
2-second horizon the packet is dropped; and since the congestion threshold
constant exceeds the horizon, the congestion-marking branch is unreachable:
no packet is ever marked congestion-experienced. -/
theorem C2_amended :
    ∀ (len rate now skbT : Nat) (lastT : Option Nat),
      (throttle_flow_ipv4 len rate now skbT lastT).ecn = false ∧
      (∀ l, lastT = some l → rate ≠ 0 →
        (if skbT < now then now else skbT) < l + len * NS_PER_SEC / 1000 / rate →
        TIME_HORIZON_NS ≤ l + len * NS_PER_SEC / 1000 / rate - now →
        (throttle_flow_ipv4 len rate now skbT lastT).act = TcAct.shot) := by
  intro len rate now skbT lastT
  refine ⟨throttle_ecn_false len rate now skbT lastT, ?_⟩
  intro l hl hr hgt hhor
  subst hl
  simp only [throttle_flow_ipv4, transmissionDelayNs, if_neg hr]
  rw [if_neg (not_le.mpr hgt), if_pos hhor]

/-- C2 witness: a packet of length 3000 at rate 1 kbps with stored departure 0
at time 0 has a three-second gap: it is dropped, and its result is unmarked. -/
theorem C2_witness :
    (throttle_flow_ipv4 3000 1 0 0 (some 0)).ecn = false ∧
    (throttle_flow_ipv4 3000 1 0 0 (some 0)).act = TcAct.shot :=
  ⟨(C2_amended 3000 1 0 0 (some 0)).1,
    (C2_amended 3000 1 0 0 (some 0)).2 0 rfl (by decide) (by decide) (by decide)⟩

/-- C7: the flow-state timestamp for a key is monotonically non-decreasing:
every successful update writes a value at least the previously stored one;
and for a burst of same-size packets to one destination at a fixed rate with
no prior history, all observing clock value now with zero skb timestamps, the
value stored after packet k+1 equals now plus k times the packet transmission
time: strictly increasing in k, spaced by the transmission time, while the
gap stays below the horizon. -/
theorem C7_monotone_burst :
    (∀ (len rate now skbT l v : Nat),
      (throttle_flow_ipv4 len rate now skbT (some l)).write = some v → l ≤ v) ∧
    (∀ (len rate now D k : Nat), transmissionDelayNs len rate = some D → 0 < D →
      (k + 1) * D < TIME_HORIZON_NS →
      burstLast len rate now (k + 1) = some (now + k * D) ∧
      burstLast len rate now (k + 2) = some (now + (k + 1) * D) ∧
      now + k * D < now + (k + 1) * D) := by
  constructor
  · exact throttle_write_mono
  · intro len rate now D k hD hpos hk
    have hmul : k * D ≤ (k + 1) * D := Nat.mul_le_mul_right D (Nat.le_succ k)
    refine ⟨burstLast_formula len rate now D hD hpos k (lt_of_le_of_lt hmul hk),
      burstLast_formula len rate now D hD hpos (k + 1) hk, ?_⟩
    have hsm : (k + 1) * D = k * D + D := by ring
    omega

/-- C7 witness: at length 1000 and rate 1000 kbps the transmission time is one
millisecond; with no prior history the first two packets of a burst at time 0
are stored at 0 and 1000000 nanoseconds, and a concrete successful update
moves the stored value up. -/
theorem C7_witness :
    (0 ≤ 1000000 ∧
      burstLast 1000 1000 0 2 = some (0 + 1 * 1000000) ∧
      burstLast 1000 1000 0 3 = some (0 + 2 * 1000000) ∧
      0 + 1 * 1000000 < 0 + 2 * 1000000) :=
  ⟨C7_monotone_burst.1 1000 1000 0 0 0 1000000 (by decide),
    (C7_monotone_burst.2 1000 1000 0 1000000 1 (by decide) (by decide) (by decide)).1,
    (C7_monotone_burst.2 1000 1000 0 1000000 1 (by decide) (by decide) (by decide)).2.1,
    (C7_monotone_burst.2 1000 1000 0 1000000 1 (by decide) (by decide) (by decide)).2.2⟩

/-- C9: the zero-rate drop check precedes the division by the rate on every
path of both throttle functions, so the zero-divisor branch of the embedded
transmission-time computation is unreachable. -/
theorem C9_no_div_by_zero :
    ∀ (len rate now skbT : Nat) (lastT : Option Nat),
      (throttle_flow_ipv4 len rate now skbT lastT).divByZero = false ∧
      (throttle_flow_ipv6 len rate now skbT lastT).divByZero = false := by
  intro len rate now skbT lastT
  constructor
  · by_cases hr : rate = 0
    · simp [throttle_flow_ipv4, hr]
    · simp only [throttle_flow_ipv4, transmissionDelayNs, if_neg hr]
      split_ifs <;> rfl
  · by_cases hr : rate = 0
    · simp [throttle_flow_ipv6, hr]
    · simp only [throttle_flow_ipv6, transmissionDelayNs, if_neg hr]
      split_ifs <;> rfl

/-- C3 counterexample: for the four-octet subnet 10.0.0.0/24 the derived
sixteen-octet subnet carries the fixed /126 mask generateIPv6 always attaches,
so it enumerates to four addresses while the /24 enumerates to 256: the
derived subnet does not contain as many concrete addresses as the source
subnet. -/
theorem C3_counterexample :
    (enumNet6 (generateIPv6ofIP [10, 0, 0, 0])).length ≠
      (enumNet4 { addr := [10, 0, 0, 0], maskBits := 24 }).length := by
  decide

/-- C3 (amended): the derived sixteen-octet subnet is always a /126, so the
count equality only holds for /30 source subnets; for every four-octet /30
subnet the derived sixteen-octet subnet enumerates to the same number (four)
of concrete addresses, and enumerating the /30 to individual addresses and
mapping each through the four-to-sixteen transform yields the same addresses
as enumerating the derived sixteen-octet subnet. -/
theorem C3_amended (a b c d : Nat) (ha : a < 256) (hb : b < 256) (hc : c < 256)
    (hd : d < 256) :
    (enumNet6 (generateIPv6ofIP [a, b, c, d])).length =
      (enumNet4 { addr := [a, b, c, d], maskBits := 30 }).length ∧
    (enumNet4 { addr := [a, b, c, d], maskBits := 30 }).map
        (fun ip => (generateIPv6ofIP ip).addr) =
      enumNet6 (generateIPv6ofIP [a, b, c, d]) := by
  have hofip : generateIPv6ofIP [a, b, c, d] = generateIPv6 a b c d := rfl
  have h4 := enumNet4_slash30 a b c d ha hb hc hd
  have h6 := enumNet6_gen a b c d ha hb hc hd
  rw [hofip, h6, h4]
  constructor
  · rfl
  · simp [generateIPv6ofIP, generateIPv6]

/-- C3 witness: the amended theorem at the /30 subnet 10.0.0.4/30. -/
theorem C3_witness :
    (enumNet6 (generateIPv6ofIP [10, 0, 0, 4])).length =
      (enumNet4 { addr := [10, 0, 0, 4], maskBits := 30 }).length ∧
    (enumNet4 { addr := [10, 0, 0, 4], maskBits := 30 }).map
        (fun ip => (generateIPv6ofIP ip).addr) =
      enumNet6 (generateIPv6ofIP [10, 0, 0, 4]) :=
  C3_amended 10 0 0 4 (by decide) (by decide) (by decide) (by decide)

/-- C4 counterexample: the address derived for 10.0.0.1 does not have six zero
groups followed by the octets packed two per 16-bit group: group 4 holds the
octet 10 and group 6 holds 0 rather than the packed value 2560. -/
theorem C4_counterexample :
    ¬ (v6group (generateIPv6ofIP [10, 0, 0, 1]).addr 0 = 0xfd00 ∧
      (∀ i < 7, 1 ≤ i → v6group (generateIPv6ofIP [10, 0, 0, 1]).addr i = 0) ∧
      v6group (generateIPv6ofIP [10, 0, 0, 1]).addr 6 = 256 * 10 + 0 ∧
      v6group (generateIPv6ofIP [10, 0, 0, 1]).addr 7 = 256 * 0 + 1) := by
  decide

/-- C4 (amended): every sixteen-octet mesh address produced by the derivation
transform begins with the 16-bit group fd00 followed by three zero groups and
ends with the four octets of the corresponding four-octet address, each octet
rendered as its own 16-bit group. -/
theorem C4_amended (a b c d : Nat) :
    v6group (generateIPv6 a b c d).addr 0 = 0xfd00 ∧
    v6group (generateIPv6 a b c d).addr 1 = 0 ∧
    v6group (generateIPv6 a b c d).addr 2 = 0 ∧
    v6group (generateIPv6 a b c d).addr 3 = 0 ∧
    v6group (generateIPv6 a b c d).addr 4 = a ∧
    v6group (generateIPv6 a b c d).addr 5 = b ∧
    v6group (generateIPv6 a b c d).addr 6 = c ∧
    v6group (generateIPv6 a b c d).addr 7 = d := by
  refine ⟨rfl, rfl, rfl, rfl, ?_, ?_, ?_, ?_⟩ <;> simp [v6group, generateIPv6]

/-- C5 counterexample: after SetBandwidth with rate zero on 10.0.0.0/30, a TCP
packet to destination 10.0.0.1 (whose entry exists with rate zero) from a
source outside the subnet is not dropped: the program returns OK because it
keys its lookup by the source address, so the latency-independent drop the
claim promises for packets to the subnet does not happen. -/
theorem C5_counterexample :
    Option.map HKD.throttleRateKbps
        ((SetBandwidthVM emptyVM { addr := [10, 0, 0, 0], maskBits := 30 } 0).v4map
          (leU32 [10, 0, 0, 1])) = some 0 ∧
    (tcMain4
        { cfg := (SetBandwidthVM emptyVM { addr := [10, 0, 0, 0], maskBits := 30 } 0).v4map,
          flow := fun _ => none }
        { proto := 6, saddr := leU32 [192, 168, 0, 1], daddr := leU32 [10, 0, 0, 1],
          len := 100, tstamp := 0 } 0).act = TcAct.ok := by
  constructor
  · decide
  · decide

/-- C5 (amended): after SetBandwidth of a subnet d with rate 0 on a machine,
every subsequent IPv4 packet of a shaped protocol whose SOURCE address is an
address of d is dropped in the bandwidth stage of the kernel scheduler,
regardless of configured latency and of any flow state, and the latency stage
is never reached for that packet. -/
theorem C5_amended (v : EngineVM) (t : IPNet4) (bw : Nat) (hbw : bw = 0)
    (flow : Nat → Option Nat) (p : Packet4) (now : Nat)
    (hp : p.proto = IPPROTO_ICMP ∨ p.proto = IPPROTO_TCP ∨ p.proto = IPPROTO_UDP)
    (hs : p.saddr ∈ parseNetToLongs4 t) :
    (tcMain4 { cfg := (SetBandwidthVM v t bw).v4map, flow := flow } p now).act =
      TcAct.shot ∧
    (tcMain4 { cfg := (SetBandwidthVM v t bw).v4map, flow := flow } p now).latencyApplied =
      false := by
  subst hbw
  have hcfg : (SetBandwidthVM v t 0).v4map p.saddr =
      some { getHBDentry v t with throttleRateKbps := 0 % 2 ^ 32 } := by
    unfold SetBandwidthVM
    exact putAll_v4_mem _ _ _ _ _ hs
  unfold tcMain4
  rw [if_pos hp]
  simp only [hcfg, Nat.zero_mod, throttle_rate0]
  exact ⟨trivial, trivial⟩

/-- C5 witness: the amended theorem at the subnet 10.0.0.0/30 with a TCP packet
whose source address is 10.0.0.2. -/
theorem C5_witness :
    (tcMain4
        { cfg := (SetBandwidthVM emptyVM { addr := [10, 0, 0, 0], maskBits := 30 } 0).v4map,
          flow := fun _ => none }
        { proto := 6, saddr := leU32 [10, 0, 0, 2], daddr := leU32 [10, 0, 0, 3],
          len := 64, tstamp := 0 } 0).act = TcAct.shot ∧
    (tcMain4
        { cfg := (SetBandwidthVM emptyVM { addr := [10, 0, 0, 0], maskBits := 30 } 0).v4map,
          flow := fun _ => none }
        { proto := 6, saddr := leU32 [10, 0, 0, 2], daddr := leU32 [10, 0, 0, 3],
          len := 64, tstamp := 0 } 0).latencyApplied = false :=
  C5_amended emptyVM { addr := [10, 0, 0, 0], maskBits := 30 } 0 rfl (fun _ => none)
    { proto := 6, saddr := leU32 [10, 0, 0, 2], daddr := leU32 [10, 0, 0, 3],
      len := 64, tstamp := 0 } 0 (Or.inr (Or.inl rfl)) (by decide)

/-- C6: evaluation of SetBandwidth(machine 3, 10.0.0.0/30, 1000) against a
state with machine 3 registered and fresh.  The enumeration walks 10.0.0.0
through 10.0.0.3 inclusive and the four-octet map receives those four keys
with rate 1000; the sixteen-octet map also receives four distinct entries
with rate 1000, but keyed by the byte-reversed reconstruction of each
address: the key stored for 10.0.0.1 is not the transform of 10.0.0.1, whose
value is absent from the map. -/
theorem C6_code_divergence :
    (SetBandwidthE (fun k => if k = 3 then some emptyVM else none) 3
        { addr := [10, 0, 0, 0], maskBits := 30 } 1000).isSome = true ∧
    parseNetToLongs4 { addr := [10, 0, 0, 0], maskBits := 30 } =
      [leU32 [10, 0, 0, 0], leU32 [10, 0, 0, 1], leU32 [10, 0, 0, 2],
        leU32 [10, 0, 0, 3]] ∧
    Option.map HKD.throttleRateKbps
        ((SetBandwidthVM emptyVM { addr := [10, 0, 0, 0], maskBits := 30 } 1000).v4map
          (leU32 [10, 0, 0, 0])) = some 1000 ∧
    Option.map HKD.throttleRateKbps
        ((SetBandwidthVM emptyVM { addr := [10, 0, 0, 0], maskBits := 30 } 1000).v4map
          (leU32 [10, 0, 0, 1])) = some 1000 ∧
    Option.map HKD.throttleRateKbps
        ((SetBandwidthVM emptyVM { addr := [10, 0, 0, 0], maskBits := 30 } 1000).v4map
          (leU32 [10, 0, 0, 2])) = some 1000 ∧
    Option.map HKD.throttleRateKbps
        ((SetBandwidthVM emptyVM { addr := [10, 0, 0, 0], maskBits := 30 } 1000).v4map
          (leU32 [10, 0, 0, 3])) = some 1000 ∧
    [mirrorKeyV6 (leU32 [10, 0, 0, 0]), mirrorKeyV6 (leU32 [10, 0, 0, 1]),
      mirrorKeyV6 (leU32 [10, 0, 0, 2]), mirrorKeyV6 (leU32 [10, 0, 0, 3])].Nodup ∧
    Option.map HKD.throttleRateKbps
        ((SetBandwidthVM emptyVM { addr := [10, 0, 0, 0], maskBits := 30 } 1000).v6map
          (mirrorKeyV6 (leU32 [10, 0, 0, 1]))) = some 1000 ∧
    mirrorKeyV6 (leU32 [10, 0, 0, 1]) ≠ (generateIPv6ofIP [10, 0, 0, 1]).addr ∧
    (SetBandwidthVM emptyVM { addr := [10, 0, 0, 0], maskBits := 30 } 1000).v6map
        ((generateIPv6ofIP [10, 0, 0, 1]).addr) = none := by
  decide

/-- C8: SetBandwidth updates only the rate field of the (machine, subnet)
entry and SetLatency only its delay field, and each call writes the whole
two-field entry into both kernel maps for every enumerated address of the
subnet: after SetBandwidth the stored delay is the prior delay, and after
SetLatency the stored rate is the prior rate, in the table and in both
maps. -/
theorem C8_frame (v : EngineVM) (t : IPNet4) (bw lat : Nat) :
    (SetBandwidthVM v t bw).hbd t =
      some { throttleRateKbps := bw % 2 ^ 32, delayUs := (getHBDentry v t).delayUs } ∧
    (SetLatencyVM v t lat).hbd t =
      some { throttleRateKbps := (getHBDentry v t).throttleRateKbps,
             delayUs := lat % 2 ^ 32 } ∧
    (∀ k, k ∈ parseNetToLongs4 t →
      (SetBandwidthVM v t bw).v4map k =
        some { throttleRateKbps := bw % 2 ^ 32, delayUs := (getHBDentry v t).delayUs } ∧
      (SetBandwidthVM v t bw).v6map (mirrorKeyV6 k) =
        some { throttleRateKbps := bw % 2 ^ 32, delayUs := (getHBDentry v t).delayUs } ∧
      (SetLatencyVM v t lat).v4map k =
        some { throttleRateKbps := (getHBDentry v t).throttleRateKbps,
               delayUs := lat % 2 ^ 32 } ∧
      (SetLatencyVM v t lat).v6map (mirrorKeyV6 k) =
        some { throttleRateKbps := (getHBDentry v t).throttleRateKbps,
               delayUs := lat % 2 ^ 32 }) := by
  refine ⟨?_, ?_, ?_⟩
  · unfold SetBandwidthVM
    simp [mapUpdate]
  · unfold SetLatencyVM
    simp [mapUpdate]
  · intro k hk
    refine ⟨?_, ?_, ?_, ?_⟩
    · show (putAll v.v4map v.v6map (parseNetToLongs4 t)
          { getHBDentry v t with throttleRateKbps := bw % 2 ^ 32 }).1 k = _
      rw [putAll_v4_mem _ _ _ _ _ hk]
    · show (putAll v.v4map v.v6map (parseNetToLongs4 t)
          { getHBDentry v t with throttleRateKbps := bw % 2 ^ 32 }).2 (mirrorKeyV6 k) = _
      rw [putAll_v6_mem _ _ _ _ _ (List.mem_map_of_mem _ hk)]
    · show (putAll v.v4map v.v6map (parseNetToLongs4 t)
          { getHBDentry v t with delayUs := lat % 2 ^ 32 }).1 k = _
      rw [putAll_v4_mem _ _ _ _ _ hk]
    · show (putAll v.v4map v.v6map (parseNetToLongs4 t)
          { getHBDentry v t with delayUs := lat % 2 ^ 32 }).2 (mirrorKeyV6 k) = _
      rw [putAll_v6_mem _ _ _ _ _ (List.mem_map_of_mem _ hk)]

/-- C8 witness: the frame theorem at the subnet 10.0.0.0/30 on a fresh
machine, checked at the enumerated address 10.0.0.1. -/
theorem C8_witness :
    (SetBandwidthVM emptyVM { addr := [10, 0, 0, 0], maskBits := 30 } 1000).v4map
        (leU32 [10, 0, 0, 1]) =
      some { throttleRateKbps := 1000 % 2 ^ 32,
             delayUs :=
               (getHBDentry emptyVM { addr := [10, 0, 0, 0], maskBits := 30 }).delayUs } ∧
    (SetLatencyVM emptyVM { addr := [10, 0, 0, 0], maskBits := 30 } 77).hbd
        { addr := [10, 0, 0, 0], maskBits := 30 } =
      some { throttleRateKbps :=
               (getHBDentry emptyVM { addr := [10, 0, 0, 0], maskBits := 30 }).throttleRateKbps,
             delayUs := 77 % 2 ^ 32 } :=
  ⟨((C8_frame emptyVM { addr := [10, 0, 0, 0], maskBits := 30 } 1000 77).2.2
      (leU32 [10, 0, 0, 1]) (by decide)).1,
    (C8_frame emptyVM { addr := [10, 0, 0, 0], maskBits := 30 } 1000 77).2.1⟩

/-- C10: a first SetLatency on a never-configured (machine, subnet) pair
creates an entry whose rate equals the default bandwidth constant, and a
first SetBandwidth creates an entry whose delay equals the default latency
constant; the created default-valued entries are pushed into both kernel maps
for every enumerated address of the subnet. -/
theorem C10_defaults (v : EngineVM) (t : IPNet4) (bw lat : Nat) (h : v.hbd t = none) :
    (SetLatencyVM v t lat).hbd t =
      some { throttleRateKbps := DEFAULT_BANDWIDTH_KBPS, delayUs := lat % 2 ^ 32 } ∧
    (SetBandwidthVM v t bw).hbd t =
      some { throttleRateKbps := bw % 2 ^ 32, delayUs := DEFAULT_LATENCY_US } ∧
    (∀ k, k ∈ parseNetToLongs4 t →
      (SetLatencyVM v t lat).v4map k =
        some { throttleRateKbps := DEFAULT_BANDWIDTH_KBPS, delayUs := lat % 2 ^ 32 } ∧
      (SetLatencyVM v t lat).v6map (mirrorKeyV6 k) =
        some { throttleRateKbps := DEFAULT_BANDWIDTH_KBPS, delayUs := lat % 2 ^ 32 } ∧
      (SetBandwidthVM v t bw).v4map k =
        some { throttleRateKbps := bw % 2 ^ 32, delayUs := DEFAULT_LATENCY_US } ∧
      (SetBandwidthVM v t bw).v6map (mirrorKeyV6 k) =
        some { throttleRateKbps := bw % 2 ^ 32, delayUs := DEFAULT_LATENCY_US }) := by
  have he : getHBDentry v t =
      { throttleRateKbps := DEFAULT_BANDWIDTH_KBPS, delayUs := DEFAULT_LATENCY_US } := by
    unfold getHBDentry
    rw [h]
  refine ⟨?_, ?_, ?_⟩
  · unfold SetLatencyVM
    simp [mapUpdate, he]
  · unfold SetBandwidthVM
    simp [mapUpdate, he]
  · intro k hk
    refine ⟨?_, ?_, ?_, ?_⟩
    · show (putAll v.v4map v.v6map (parseNetToLongs4 t)
          { getHBDentry v t with delayUs := lat % 2 ^ 32 }).1 k = _
      rw [putAll_v4_mem _ _ _ _ _ hk, he]
    · show (putAll v.v4map v.v6map (parseNetToLongs4 t)
          { getHBDentry v t with delayUs := lat % 2 ^ 32 }).2 (mirrorKeyV6 k) = _
      rw [putAll_v6_mem _ _ _ _ _ (List.mem_map_of_mem _ hk), he]
    · show (putAll v.v4map v.v6map (parseNetToLongs4 t)
          { getHBDentry v t with throttleRateKbps := bw % 2 ^ 32 }).1 k = _
      rw [putAll_v4_mem _ _ _ _ _ hk, he]
    · show (putAll v.v4map v.v6map (parseNetToLongs4 t)
          { getHBDentry v t with throttleRateKbps := bw % 2 ^ 32 }).2 (mirrorKeyV6 k) = _
      rw [putAll_v6_mem _ _ _ _ _ (List.mem_map_of_mem _ hk), he]

/-- C10 witness: the defaults theorem on a fresh machine at the subnet
10.0.0.0/30, checked at the enumerated address 10.0.0.0. -/
theorem C10_witness :
    (SetLatencyVM emptyVM { addr := [10, 0, 0, 0], maskBits := 30 } 500).hbd
        { addr := [10, 0, 0, 0], maskBits := 30 } =
      some { throttleRateKbps := DEFAULT_BANDWIDTH_KBPS, delayUs := 500 % 2 ^ 32 } ∧
    (SetLatencyVM emptyVM { addr := [10, 0, 0, 0], maskBits := 30 } 500).v4map
        (leU32 [10, 0, 0, 0]) =
      some { throttleRateKbps := DEFAULT_BANDWIDTH_KBPS, delayUs := 500 % 2 ^ 32 } :=
  ⟨(C10_defaults emptyVM { addr := [10, 0, 0, 0], maskBits := 30 } 1000 500 rfl).1,
    ((C10_defaults emptyVM { addr := [10, 0, 0, 0], maskBits := 30 } 1000 500 rfl).2.2
      (leU32 [10, 0, 0, 0]) (by decide)).1⟩
